import Mathlib

/-!
Verification development for the September AMS analysis pipeline.

The definitions below are a shallow embedding of the account-classification
and on-time-performance (OTP) code of the repository: the hardened variant
in app1.py and, where a claim refers to them, the two earlier variants kept
in the unnamed source file.  Python strings are modeled as Lean strings,
pandas NaN cells and missing columns are modeled explicitly, floats are
modeled as rationals, and timestamps are rationals counting days since
1970-01-01 (so the spreadsheet serial epoch 1899-12-30 is day -25569).
-/

/-! ## Python string primitives (ASCII semantics, as used by the code) -/

/-- Model of the ASCII lowercase conversion used by Python str.lower. -/
def lowerChar (c : Char) : Char :=
  if 65 ≤ c.toNat ∧ c.toNat ≤ 90 then Char.ofNat (c.toNat + 32) else c

/-- Model of the ASCII uppercase conversion used by Python str.upper. -/
def upperChar (c : Char) : Char :=
  if 97 ≤ c.toNat ∧ c.toNat ≤ 122 then Char.ofNat (c.toNat - 32) else c

/-- Python str.lower over a whole string. -/
def pyLower (s : String) : String := String.mk (s.data.map lowerChar)

/-- Python str.upper over a whole string. -/
def pyUpper (s : String) : String := String.mk (s.data.map upperChar)

/-- Whitespace characters recognized by Python str.strip and regex gaps. -/
def isSpaceChar (c : Char) : Bool :=
  c == ' ' || c == '\t' || c == '\n' || c == '\r'

/-- Python str.strip: drop whitespace on both ends. -/
def pyStrip (s : String) : String :=
  String.mk (((s.data.dropWhile isSpaceChar).reverse.dropWhile isSpaceChar).reverse)

/-- Decides whether the first list is an initial segment of the second. -/
def listPre : List Char → List Char → Bool
  | [], _ => true
  | _ :: _, [] => false
  | a :: as, b :: bs => a == b && listPre as bs

/-- Decides whether needle occurs contiguously inside hay: the semantics of
the Python membership test on strings. -/
def subList (needle : List Char) : List Char → Bool
  | [] => listPre needle []
  | c :: t => listPre needle (c :: t) || subList needle t

/-- Python substring containment k in s. -/
def pyIn (k s : String) : Bool := subList k.data s.data

/-- A for-loop that returns True as soon as one keyword is contained in the
text, as in is_healthcare and is_aviation and in the helper of the earlier
variant that the spec calls the keyword scan. -/
def containsAny (kws : List String) (s : String) : Bool :=
  kws.any (fun k => pyIn k s)

/-! ## Account-name cells

A pandas cell feeding the classifier is either NaN (an empty Excel cell),
a text value, or a numeric value.  Python truthiness and str() conversion
are modeled per case: NaN is truthy and prints as nan, a number prints as
its digits followed by .0 (the float repr produced by the Excel reader). -/

/-- One of the ten ASCII digit characters. -/
def digitChar (d : Nat) : Char :=
  match d with
  | 0 => '0' | 1 => '1' | 2 => '2' | 3 => '3' | 4 => '4'
  | 5 => '5' | 6 => '6' | 7 => '7' | 8 => '8' | _ => '9'

/-- Decimal digit list of a natural number, most significant first. -/
def natToDigits (n : Nat) : List Char :=
  if h : n < 10 then [digitChar n]
  else natToDigits (n / 10) ++ [digitChar (n % 10)]
decreasing_by
  have h10 : 10 ≤ n := Nat.le_of_not_lt h
  exact Nat.div_lt_self (Nat.lt_of_lt_of_le (by decide) h10) (by decide)

/-- Python str() of a float-valued account cell holding the integer n. -/
def pyStrNum (n : Nat) : String := String.mk (natToDigits n ++ ['.', '0'])

/-- An account-name cell as read from the spreadsheet. -/
inductive Cell where
  | null
  | txt (s : String)
  | num (n : Nat)
deriving DecidableEq

/-- Python truthiness of the cell (NaN is truthy, the empty string and the
number zero are falsy). -/
def pyTruthy : Cell → Bool
  | .null => true
  | .txt s => !(s == "")
  | .num n => !(n == 0)

/-- Python str() of the cell. -/
def pyStrCell : Cell → String
  | .null => "nan"
  | .txt s => s
  | .num n => pyStrNum n

/-! ## Static taxonomy (app1.py lines 43-92) -/

/-- Allow-list of RadioPharma legal entities (RP_ACCOUNTS). -/
def RP_ACCOUNTS : List String := [
  "Marken Ltd",
  "QIAGEN GmbH Weekly",
  "Fisher Clinical Services",
  "Agilent Technologies Deutschland GmbH",
  "Patheon Biologics BV",
  "Delpharm Development Leiden BV",
  "Abbott Biologicals BV",
  "Fisher BioServices Netherlands BV",
  "Abbott Healthcare Products BV",
  "UNIVERSAL PICTURES INTERNATIONAL NETHERLANDS",
  "Patheon UK",
  "VERACYTE INC",
  "Tosoh Europe",
  "Exnet Services",
  "Nobel Biocare Distribution Center BV"]

/-- Healthcare keyword fragments (HEALTHCARE_KEYWORDS). -/
def HEALTHCARE_KEYWORDS : List String := [
  "pharma", "medical", "health", "bio", "clinical", "hospital", "diagnostic",
  "therapeut", "laborator", "patholog", "imaging", "surgical", "oncolog",
  "cardio", "neuro", "radiol", "genetic", "genomic", "molecular", "cell",
  "tissue", "organ", "transplant", "vaccine", "antibod", "protein", "peptide",
  "life science", "lifescience", "medic", "therap", "diagnost", "clinic",
  "patient", "treatment", "disease", "drug", "dose", "isotope", "radio",
  "nuclear", "pet", "spect", "immuno", "assay", "reagent", "specimen",
  "sample", "blood", "plasma", "serum", "biobank", "cryo", "stem",
  "marken", "fisher", "cardinal", "patheon", "organox", "qiagen", "abbott",
  "tosoh", "leica", "sophia", "cerus", "sirtex", "lantheus", "avid",
  "petnet", "innervate", "ndri", "university", "institut", "pentec",
  "sexton", "atomics", "curium", "medtronic", "catalent", "delpharm",
  "veracyte", "eckert", "ziegler", "shine", "altasciences",
  "onkos", "biolabs", "biosystem", "life molecular", "cerveau", "meilleur",
  "samsung bio", "agilent"]

/-- Aviation keyword fragments (AVIATION_KEYWORDS). -/
def AVIATION_KEYWORDS : List String := [
  "airline", "airport", "cargo", "freight", "logistic", "transport",
  "express", "disney", "pictures", "aviation", "aircraft", "aerospace",
  "volaris", "easyjet", "lufthansa", "delta", "american airlines",
  "british airways", "nippon", "aeromexico", "spairliners", "universal",
  "paramount", "productions", "courier", "forwarding", "tmr global",
  "aeroplex", "nova traffic", "ups", "endeavor air",
  "storm aviation", "adventures", "hartford", "tokyo electron", "slipstick",
  "sealion production", "heathrow courier", "macaronesia", "exnet service",
  "mnx global logistics", "logical freight", "concesionaria", "vuela compania",
  "panasonic avionics"]

/-! ## Classifier predicates (app1.py lines 111-162) -/

/-- is_rp_account: falsy names are rejected, otherwise the str() form of the
name must appear verbatim in the allow-list (no trimming is applied). -/
def is_rp_account (c : Cell) : Bool :=
  if !(pyTruthy c) then false
  else RP_ACCOUNTS.contains (pyStrCell c)

/-- is_healthcare: allow-listed accounts are excluded first, then any
aviation keyword in the lowercased name suppresses the healthcare match,
then the healthcare keywords are scanned. -/
def is_healthcare (c : Cell) : Bool :=
  if !(pyTruthy c) then false
  else if is_rp_account c then false
  else if containsAny AVIATION_KEYWORDS (pyLower (pyStrCell c)) then false
  else containsAny HEALTHCARE_KEYWORDS (pyLower (pyStrCell c))

/-- is_aviation: allow-listed accounts are excluded first, then any
healthcare keyword in the lowercased name suppresses the aviation match,
then the aviation keywords are scanned. -/
def is_aviation (c : Cell) : Bool :=
  if !(pyTruthy c) then false
  else if is_rp_account c then false
  else if containsAny HEALTHCARE_KEYWORDS (pyLower (pyStrCell c)) then false
  else containsAny AVIATION_KEYWORDS (pyLower (pyStrCell c))

/-- The four classification outcomes. -/
inductive Segment where
  | RP
  | LFS
  | AVS
  | Unclassified
deriving DecidableEq

/-- The per-record classification implemented by the app1.py pipeline: the
RP filter keeps allow-listed rows, the LFS filter keeps rows passing
is_healthcare, the AVS filter keeps rows passing is_aviation, and the three
predicates are mutually exclusive by construction. -/
def classify (c : Cell) : Segment :=
  if is_rp_account c then .RP
  else if is_healthcare c then .LFS
  else if is_aviation c then .AVS
  else .Unclassified

example : classify (Cell.txt "Marken Ltd") = Segment.RP := by decide
example : classify (Cell.txt "Lufthansa Cargo") = Segment.AVS := by decide
example : classify (Cell.txt "Acme Pharma") = Segment.LFS := by decide
example : classify (Cell.txt "cargo pharma") = Segment.Unclassified := by decide
example : classify (Cell.txt "Marken Ltd ") = Segment.LFS := by decide

/-! ## Date cells and the Date Normalizer (app1.py lines 95-102)

A raw date cell, as pandas presents it to the parser, either is NaN, or
carries a value that calendar-text parsing accepts, or is numeric (accepted
by to_numeric but not by calendar parsing), or is text that both parsers
reject.  Timestamps are rationals counting days since 1970-01-01. -/

/-- A raw spreadsheet cell feeding the date parser. -/
inductive RawCell where
  | null
  | dt (t : ℚ)
  | num (q : ℚ)
  | junk
deriving DecidableEq

/-- Calendar-text parsing with coercion: NaT on failure. -/
def toDt : RawCell → Option ℚ
  | .dt t => some t
  | _ => none

/-- Numeric parsing with coercion: NaN on failure. -/
def toNum : RawCell → Option ℚ
  | .num q => some q
  | _ => none

/-- pandas notna on a raw cell. -/
def rawNotna : RawCell → Bool
  | .null => false
  | _ => true

/-- The spreadsheet serial epoch 1899-12-30, as days since 1970-01-01. -/
def epoch1899 : ℚ := -25569

/-- Number of calendar-text parse failures over a column. -/
def naFailCount (s : List RawCell) : Nat := (s.map toDt).count none

/-- Per-cell result once the serial fallback is active: keep the calendar
parse when it succeeded, otherwise reinterpret the numeric value as a
serial day offset from the 1899-12-30 epoch. -/
def dtFallback (c : RawCell) : Option ℚ :=
  match toDt c with
  | some t => some t
  | none => (toNum c).map (fun q => epoch1899 + q)

/-- The Date Normalizer: parse every cell as calendar text; when more than
half of the results are NaT, build the serial-number candidate series and
take it positionwise wherever the text parse failed. -/
def _excel_to_dt (s : List RawCell) : List (Option ℚ) :=
  if 2 * (s.map toDt).count none > s.length then
    List.zipWith (fun o o2 => if o.isSome then o else o2) (s.map toDt)
      (s.map (fun c => (toNum c).map (fun q => epoch1899 + q)))
  else s.map toDt

/-! ## QC regex matcher

The non-controllable QC patterns are alternations of word-bounded literal
chunks, adjacent chunks separated by an optional whitespace run.  Since
every chunk begins and ends with a letter, a word boundary holds exactly
when the neighbouring character is absent or is not a word character. -/

/-- Regex word characters: letters, digits and the underscore. -/
def isWordChar (c : Char) : Bool :=
  (48 ≤ c.toNat && c.toNat ≤ 57) || (65 ≤ c.toNat && c.toNat ≤ 90) ||
  (97 ≤ c.toNat && c.toNat ≤ 122) || c.toNat == 95

/-- Match the chunk list at the head of the text, skipping an optional
whitespace run between consecutive chunks; returns the rest of the text
after the match. -/
def matchChunks : List (List Char) → List Char → Option (List Char)
  | [], s => some s
  | [c], s => if listPre c s then some (s.drop c.length) else none
  | c :: cs, s =>
    if listPre c s then matchChunks cs ((s.drop c.length).dropWhile isSpaceChar)
    else none

/-- The left word-boundary test against the previous character. -/
def boundaryL : Option Char → Bool
  | none => true
  | some c => !isWordChar c

/-- The right word-boundary test on the text remaining after a match. -/
def matchEndOk : Option (List Char) → Bool
  | none => false
  | some [] => true
  | some (c :: _) => !isWordChar c

/-- Unanchored regex search of one word-bounded chunk pattern. -/
def searchFrom (pat : List (List Char)) : Option Char → List Char → Bool
  | prev, [] => boundaryL prev && matchEndOk (matchChunks pat [])
  | prev, c :: t =>
    (boundaryL prev && matchEndOk (matchChunks pat (c :: t))) || searchFrom pat (some c) t

/-- Chunk lists from string literals. -/
def rxChunks (ws : List String) : List (List Char) := ws.map String.data

/-- Search for any of the alternation branches. -/
def rxSearchAny (pats : List (List (List Char))) (s : String) : Bool :=
  pats.any (fun p => searchFrom p none s.data)

/-- The twelve non-controllable QC patterns of app1.py lines 204-217. -/
def APP1_QC_PATTERNS : List (List (List Char)) := [
  rxChunks ["AGENT"], rxChunks ["DEL", "AGT"], rxChunks ["DELIVERY", "AGENT"],
  rxChunks ["CUSTOMS"], rxChunks ["WAREHOUSE"], rxChunks ["W/HOUSE"],
  rxChunks ["WH"], rxChunks ["CLEARANCE"], rxChunks ["REGULATORY"],
  rxChunks ["GOVERNMENT"], rxChunks ["WEATHER"], rxChunks ["FORCE", "MAJEURE"]]

/-- The six non-controllable QC patterns of the earlier variants. -/
def PART0_QC_PATTERNS : List (List (List Char)) := [
  rxChunks ["AGENT"], rxChunks ["DEL", "AGT"], rxChunks ["DELIVERY", "AGENT"],
  rxChunks ["CUSTOMS"], rxChunks ["WAREHOUSE"], rxChunks ["W/HOUSE"]]

/-- fillna with the empty string, as app1.py applies to the QC column. -/
def fillnaStr : Option String → String
  | none => ""
  | some s => s

/-- astype(str) without fillna: NaN prints as nan. -/
def pyStrOptNan : Option String → String
  | none => "nan"
  | some s => s

/-- Non-controllable test of app1.py: fillna, uppercase, search the twelve
patterns (the regex is additionally case-insensitive, subsumed here by the
uppercasing). -/
def nonCtrlA (qc : Option String) : Bool :=
  rxSearchAny APP1_QC_PATTERNS (pyUpper (fillnaStr qc))

/-- Non-controllable test of the second earlier variant: astype(str),
uppercase, search the six base patterns. -/
def nonCtrlV0 (qc : Option String) : Bool :=
  rxSearchAny PART0_QC_PATTERNS (pyUpper (pyStrOptNan qc))

example : nonCtrlA (some "Customs Hold") = true := by decide
example : nonCtrlA (some "ACCUSTOMS") = false := by decide
example : nonCtrlA (some "del agt late") = true := by decide
example : nonCtrlA (some "DELAGT") = true := by decide
example : nonCtrlA (some "WH delay") = true := by decide
example : nonCtrlV0 (some "WH delay") = false := by decide
example : nonCtrlA none = false := by decide
example : nonCtrlV0 none = false := by decide

/-! ## Data frames

One row carries every column the claims touch; a frame is a row list plus
presence flags for the optional columns, so that the dynamic
column-existence checks of the source can be expressed. -/

/-- One spreadsheet row. -/
structure Row where
  acct : Cell
  sheet : String
  dep : Cell
  arr : Cell
  updDel : RawCell
  qdt : RawCell
  pod : RawCell
  qc : Option String
  qcName : Option String
  pieces : RawCell
deriving DecidableEq

/-- A row with every field blank, for building concrete frames. -/
def baseRow : Row :=
  { acct := .null, sheet := "AMS", dep := .null, arr := .null,
    updDel := .null, qdt := .null, pod := .null, qc := none,
    qcName := none, pieces := .null }

/-- A data frame: rows plus column-presence flags. -/
structure Frame where
  rows : List Row
  hasUpdDel : Bool := false
  hasQdt : Bool := false
  hasPod : Bool := false
  hasQc : Bool := false
  hasQcName : Bool := false
  hasDep : Bool := false
  hasArr : Bool := false
  hasPieces : Bool := false
deriving DecidableEq

/-- Target-series selection of app1.py lines 104-109: the whole UPD DEL
column whenever that column exists and holds at least one non-null value,
else the whole QDT column when present, else nothing.  The choice is made
once per column, not per record. -/
def _get_target_series (f : Frame) : Option (List RawCell) :=
  if f.hasUpdDel && (f.rows.map Row.updDel).any rawNotna then
    some (f.rows.map Row.updDel)
  else if f.hasQdt then some (f.rows.map Row.qdt)
  else none

/-- The parsed POD series of calculate_otp; an absent column behaves as
all-null. -/
def seriesPod (f : Frame) : List (Option ℚ) :=
  if f.hasPod then _excel_to_dt (f.rows.map Row.pod)
  else List.replicate f.rows.length none

/-- The parsed target series of calculate_otp; a missing selection behaves
as all-null. -/
def seriesTarget (f : Frame) : List (Option ℚ) :=
  match _get_target_series f with
  | some col => _excel_to_dt col
  | none => List.replicate f.rows.length none

/-- POD and target timestamps zipped positionwise. -/
def datePairs (f : Frame) : List (Option ℚ × Option ℚ) :=
  (seriesPod f).zip (seriesTarget f)

/-- A record is valid for OTP when both timestamps are non-null. -/
def validPair (pt : Option ℚ × Option ℚ) : Bool := pt.1.isSome && pt.2.isSome

/-- NaT-propagating comparison: true only when both sides are non-null and
the first is at most the second. -/
def optLe : Option ℚ → Option ℚ → Bool
  | some a, some b => decide (a ≤ b)
  | _, _ => false

/-- A record is on-time when valid and POD is at most the target. -/
def ontimePair (pt : Option ℚ × Option ℚ) : Bool := optLe pt.1 pt.2 && validPair pt

/-- Sum of the valid mask. -/
def validCount (f : Frame) : Nat := (datePairs f).countP validPair

/-- Sum of the on-time mask. -/
def ontimeCount (f : Frame) : Nat := (datePairs f).countP ontimePair

/-- QC annotations zipped with the date pairs. -/
def qcPairs (f : Frame) : List (Option String × (Option ℚ × Option ℚ)) :=
  (f.rows.map Row.qc).zip (datePairs f)

/-- Sum of the controllable mask (valid and not non-controllable). -/
def ctrlCount (f : Frame) : Nat :=
  (qcPairs f).countP (fun x => validPair x.2 && !nonCtrlA x.1)

/-- Sum of the on-time-and-controllable mask. -/
def netOnCount (f : Frame) : Nat :=
  (qcPairs f).countP (fun x => ontimePair x.2 && (validPair x.2 && !nonCtrlA x.1))

/-- The raw gross ratio. -/
def grossRatio (f : Frame) : ℚ := (ontimeCount f : ℚ) / (validCount f : ℚ) * 100

/-- Round half to even, the tie behaviour of Python round. -/
def roundHalfEven (q : ℚ) : ℤ :=
  if q - q.floor < 1/2 then q.floor
  else if (1:ℚ)/2 < q - q.floor then q.floor + 1
  else if q.floor % 2 = 0 then q.floor else q.floor + 1

/-- Python round(x, 2). -/
def round2 (q : ℚ) : ℚ := (roundHalfEven (q * 100) : ℚ) / 100

/-- calculate_otp of app1.py lines 164-255: gross OTP over valid records,
net OTP over controllable valid records with a fallback of 0.0 when none
is controllable, both rounded to two decimals; every degenerate frame
yields the pair (0, 0), and a frame without a QC column reports the gross
value twice. -/
def calculate_otp (f : Frame) : ℚ × ℚ :=
  if f.rows.isEmpty then (0, 0)
  else if (_get_target_series f).isNone then (0, 0)
  else if !f.hasPod then (0, 0)
  else if validCount f = 0 then (0, 0)
  else if f.hasQc then
    (round2 (grossRatio f),
     round2 (if 0 < ctrlCount f then (netOnCount f : ℚ) / (ctrlCount f : ℚ) * 100 else 0))
  else (round2 (grossRatio f), round2 (grossRatio f))

/-- Controllable-mask sum of the second earlier variant. -/
def ctrlCountV0 (f : Frame) : Nat :=
  (qcPairs f).countP (fun x => validPair x.2 && !nonCtrlV0 x.1)

/-- On-time-and-controllable sum of the second earlier variant, written
with the bare comparison mask as in its source. -/
def netOnCountV0 (f : Frame) : Nat :=
  (qcPairs f).countP (fun x => optLe x.2.1 x.2.2 && (validPair x.2 && !nonCtrlV0 x.1))

/-- calculate_otp of the second earlier variant (unnamed file lines
498-548): unrounded, six QC patterns, and a fallback of the gross value
when no record is controllable. -/
def calculate_otp_v0 (f : Frame) : ℚ × ℚ :=
  if f.rows.isEmpty then (0, 0)
  else if (_get_target_series f).isNone then (0, 0)
  else if !f.hasPod then (0, 0)
  else if validCount f = 0 then (0, 0)
  else if f.hasQc then
    (grossRatio f,
     if 0 < ctrlCountV0 f then (netOnCountV0 f : ℚ) / (ctrlCountV0 f : ℚ) * 100
     else grossRatio f)
  else (grossRatio f, grossRatio f)

/-- The office mask of one row: DEP or ARR contains AMS case-insensitively. -/
def amsMaskRow (r : Row) : Bool :=
  pyIn "ams" (pyLower (pyStrCell r.dep)) || pyIn "ams" (pyLower (pyStrCell r.arr))

/-- filter_by_ams of app1.py lines 257-266: the mask is applied only when
the DEP and the ARR column are both present; otherwise the frame passes
through unchanged. -/
def filter_by_ams (f : Frame) : Frame :=
  if f.rows.isEmpty then f
  else if f.hasDep && f.hasArr then { f with rows := f.rows.filter amsMaskRow }
  else f

/-! ## Segment membership predicates of the app1.py pipeline -/

/-- The isin test of the pipeline against the allow-list. -/
def isinRP : Cell → Bool
  | .txt s => RP_ACCOUNTS.contains s
  | _ => false

/-- Membership in the RadioPharma record set: rows of the AMS sheet whose
account name is allow-listed (app1.py line 388). -/
def inRP (r : Row) : Bool := (r.sheet == "AMS") && isinRP r.acct

/-- Membership in the LifeSciences record set: rows of the two LFS sheets,
office-filtered, passing is_healthcare, with allow-listed rows removed
again (app1.py lines 406-421). -/
def inLFS (r : Row) : Bool :=
  (r.sheet == "AMS" || r.sheet == "Americas International Desk")
  && amsMaskRow r && is_healthcare r.acct && !(isinRP r.acct)

/-- Membership in the Aviation record set: rows of the three AVS sheets,
office-filtered, passing is_aviation, with allow-listed rows removed again
(app1.py lines 441-455). -/
def inAVS (r : Row) : Bool :=
  (r.sheet == "AMS" || r.sheet == "Americas International Desk"
    || r.sheet == "Aviation SVC")
  && amsMaskRow r && is_aviation r.acct && !(isinRP r.acct)

/-! ## The first earlier variant: add_otp_columns and kpis_for_september -/

/-- to_numeric with coercion and fillna(0). -/
def _coerce_num (c : RawCell) : ℚ := (toNum c).getD 0

/-- One row after add_otp_columns: parsed dates, the controllability flag,
both on-time flags and the coerced pieces value. -/
structure ORow where
  pod : Option ℚ
  target : Option ℚ
  isCtrl : Bool
  onTimeGross : Bool
  onTimeNet : Bool
  pieces : ℚ
deriving DecidableEq

/-- add_otp_columns of the first earlier variant (unnamed file lines
100-132): parse POD, pick UPD DEL else QDT by column presence alone, flag
rows whose QC NAME text matches the six patterns, and mark a row net-on-time
when it is gross-on-time or late without a pattern match. -/
def add_otp_columns (f : Frame) : List ORow :=
  let n := f.rows.length
  let podS := if f.hasPod then _excel_to_dt (f.rows.map Row.pod)
              else List.replicate n none
  let tgtS := if f.hasUpdDel then _excel_to_dt (f.rows.map Row.updDel)
              else if f.hasQdt then _excel_to_dt (f.rows.map Row.qdt)
              else List.replicate n none
  let ctrlS := if f.hasQcName
               then f.rows.map (fun r =>
                 rxSearchAny PART0_QC_PATTERNS (pyUpper (pyStrOptNan r.qcName)))
               else List.replicate n false
  let piecesS := if f.hasPieces then f.rows.map (fun r => _coerce_num r.pieces)
                 else List.replicate n (0 : ℚ)
  (((podS.zip tgtS).zip ctrlS).zip piecesS).map (fun x =>
    let g := optLe x.1.1.1 x.1.1.2
    { pod := x.1.1.1, target := x.1.1.2, isCtrl := x.1.2,
      onTimeGross := g, onTimeNet := g || (!g && !x.1.2), pieces := x.2 })

/-- Civil calendar from a day count since 1970-01-01. -/
def civilFromDays (z0 : ℤ) : ℤ × ℤ × ℤ :=
  let z := z0 + 719468
  let era := Int.fdiv z 146097
  let doe := z - era * 146097
  let yoe := (doe - doe / 1460 + doe / 36524 - doe / 146096) / 365
  let y := yoe + era * 400
  let doy := doe - (365 * yoe + yoe / 4 - yoe / 100)
  let mp := (5 * doy + 2) / 153
  let m := mp + (if mp < 10 then 3 else -9)
  (if m ≤ 2 then y + 1 else y, m, doy - (153 * mp + 2) / 5 + 1)

/-- Month of a timestamp, as pandas dt.month. -/
def monthOf (q : ℚ) : ℤ := (civilFromDays ⌊q⌋).2.1

/-- Year of a timestamp, as pandas dt.year. -/
def yearOf (q : ℚ) : ℤ := (civilFromDays ⌊q⌋).1

/-- Python int() truncation toward zero. -/
def ratTrunc (q : ℚ) : ℤ := q.num / (q.den : ℤ)

/-- The KPI bundle of the first earlier variant. -/
structure Kpi where
  volume : Nat
  pieces : ℤ
  gross : Option ℚ
  net : Option ℚ
deriving DecidableEq

/-- kpis_for_september of the first earlier variant (unnamed file lines
156-177): keep September rows of the requested year, report volume and
pieces over them, means of the two on-time flags over the rows with a
target, and clamp the net value up to the gross value. -/
def kpis_for_september (rows : List ORow) (year : Option ℤ) : Kpi :=
  if rows.isEmpty then ⟨0, 0, none, none⟩
  else
    let d1 := rows.filter (fun r => r.pod.isSome)
    let d2 := d1.filter (fun r => monthOf (r.pod.getD 0) == 9)
    let d3 : List ORow := match year with
              | some y => d2.filter (fun (r : ORow) => yearOf (r.pod.getD 0) == y)
              | none => d2
    let pieces := ratTrunc (d3.map ORow.pieces).sum
    let base := d3.filter (fun r => r.target.isSome)
    if base.isEmpty then ⟨d3.length, pieces, none, none⟩
    else
      let gross := ((base.countP ORow.onTimeGross : ℚ) / (base.length : ℚ)) * 100
      let net0 := ((base.countP ORow.onTimeNet : ℚ) / (base.length : ℚ)) * 100
      ⟨d3.length, pieces, some gross, some (if net0 < gross then gross else net0)⟩

example : monthOf 19971 = 9 ∧ yearOf 19971 = 2024 := by decide
example : monthOf 0 = 1 ∧ yearOf 0 = 1970 := by decide
example : monthOf (-25569) = 12 ∧ yearOf (-25569) = 1899 := by decide

/-! ## Specification-side definitions, used to compare code with spec -/

/-- Gross OTP as the specification words it: on-time valid records over
valid records times one hundred, zero when no record is valid. -/
def grossSpec (f : Frame) : ℚ :=
  if validCount f = 0 then 0 else (ontimeCount f : ℚ) / (validCount f : ℚ) * 100

/-- Net OTP ratio as the specification words it: on-time controllable valid
records over controllable valid records times one hundred. -/
def netSpecRatio (f : Frame) : ℚ := (netOnCount f : ℚ) / (ctrlCount f : ℚ) * 100

/-- Per-record target selection as the specification words it: each record
takes its UPD DEL cell when that column exists and the cell is non-null,
otherwise its own QDT cell.  Stated for comparison with the column-level
selection the code performs. -/
def targetPerRecordSpec (f : Frame) : List RawCell :=
  f.rows.map (fun r =>
    if f.hasUpdDel && rawNotna r.updDel then r.updDel
    else if f.hasQdt then r.qdt
    else RawCell.null)

/-! ## Character and substring lemmas -/

/-- Digit or dot characters, the alphabet of the str() form of a number. -/
def isDDChar (c : Char) : Bool := (48 ≤ c.toNat && c.toNat ≤ 57) || c.toNat == 46

/-- ASCII letters. -/
def isLetterChar (c : Char) : Bool :=
  (65 ≤ c.toNat && c.toNat ≤ 90) || (97 ≤ c.toNat && c.toNat ≤ 122)

theorem ddChar_not_letter {c : Char} (h : isDDChar c = true) : isLetterChar c = false := by
  simp only [isDDChar, Bool.or_eq_true, Bool.and_eq_true, decide_eq_true_eq, beq_iff_eq] at h
  cases hl : isLetterChar c
  · rfl
  · exfalso
    simp only [isLetterChar, Bool.or_eq_true, Bool.and_eq_true, decide_eq_true_eq] at hl
    omega

theorem lowerChar_dd {c : Char} (h : isDDChar c = true) : lowerChar c = c := by
  simp only [isDDChar, Bool.or_eq_true, Bool.and_eq_true, decide_eq_true_eq, beq_iff_eq] at h
  unfold lowerChar
  rw [if_neg]
  omega

theorem digitChar_dd (d : Nat) : isDDChar (digitChar d) = true := by
  unfold digitChar
  split <;> decide

theorem natToDigits_dd (n : Nat) : ∀ c ∈ natToDigits n, isDDChar c = true := by
  induction n using Nat.strong_induction_on with
  | _ n ih =>
    rw [natToDigits]
    split
    · intro c hc
      simp only [List.mem_singleton] at hc
      subst hc
      exact digitChar_dd n
    · intro c hc
      rw [List.mem_append] at hc
      rcases hc with h | h
      · have hlt : n / 10 < n := Nat.div_lt_self (by omega) (by omega)
        exact ih (n / 10) hlt c h
      · simp only [List.mem_singleton] at h
        subst h
        exact digitChar_dd (n % 10)

theorem pyStrNum_dd (n : Nat) : ∀ c ∈ (pyStrNum n).data, isDDChar c = true := by
  intro c hc
  have hc2 : c ∈ natToDigits n ++ ['.', '0'] := hc
  rw [List.mem_append] at hc2
  rcases hc2 with h | h
  · exact natToDigits_dd n c h
  · rcases List.mem_cons.mp h with rfl | h2
    · decide
    · simp only [List.mem_singleton] at h2; subst h2; decide

theorem listPre_subset : ∀ (n h : List Char), listPre n h = true → ∀ c ∈ n, c ∈ h := by
  intro n
  induction n with
  | nil =>
    intro h _ c hc
    simp at hc
  | cons a as ih =>
    intro h hp c hc
    cases h with
    | nil => simp [listPre] at hp
    | cons b bs =>
      simp only [listPre, Bool.and_eq_true, beq_iff_eq] at hp
      obtain ⟨rfl, h2⟩ := hp
      rcases List.mem_cons.mp hc with rfl | hmem
      · exact List.mem_cons_self _ _
      · exact List.mem_cons_of_mem _ (ih bs h2 c hmem)

theorem subList_subset : ∀ (h n : List Char), subList n h = true → ∀ c ∈ n, c ∈ h := by
  intro h
  induction h with
  | nil =>
    intro n hs c hc
    have := listPre_subset n [] hs c hc
    simp at this
  | cons b bs ih =>
    intro n hs c hc
    simp only [subList, Bool.or_eq_true] at hs
    rcases hs with h1 | h2
    · exact listPre_subset _ _ h1 c hc
    · exact List.mem_cons_of_mem _ (ih n h2 c hc)

theorem containsAny_dd (kws : List String)
    (hl : kws.all (fun k => k.data.any isLetterChar) = true)
    (hay : List Char) (hd : ∀ c ∈ hay, isDDChar c = true) :
    containsAny kws (String.mk hay) = false := by
  rw [containsAny, List.any_eq_false]
  intro k hk habs
  have hlet := (List.all_eq_true.mp hl) k hk
  obtain ⟨c, hc, hcl⟩ := List.any_eq_true.mp hlet
  have hmem : c ∈ hay := subList_subset hay k.data habs c hc
  have hfalse := ddChar_not_letter (hd c hmem)
  rw [hcl] at hfalse
  exact absurd hfalse (by decide)

/-! ## Date Normalizer lemmas -/

theorem zipWith_fallback (s : List RawCell) :
    List.zipWith (fun o o2 => if Option.isSome o then o else o2) (s.map toDt)
      (s.map (fun c => (toNum c).map (fun q => epoch1899 + q))) = s.map dtFallback := by
  induction s with
  | nil => rfl
  | cons a t ih =>
    simp only [List.map_cons, List.zipWith_cons_cons, ih]
    congr 1
    cases h : toDt a <;> simp [dtFallback, h]

theorem excel_len (s : List RawCell) : (_excel_to_dt s).length = s.length := by
  unfold _excel_to_dt
  split
  · simp [List.length_zipWith]
  · simp

theorem excel_fb {s : List RawCell} (h : 2 * naFailCount s > s.length) :
    _excel_to_dt s = s.map dtFallback := by
  unfold naFailCount at h
  unfold _excel_to_dt
  rw [if_pos h]
  exact zipWith_fallback s

theorem excel_nofb {s : List RawCell} (h : ¬(2 * naFailCount s > s.length)) :
    _excel_to_dt s = s.map toDt := by
  unfold naFailCount at h
  unfold _excel_to_dt
  rw [if_neg h]

/-! ## Series and count lemmas for the OTP calculators -/

theorem tcol_len {f : Frame} {col : List RawCell} (h : _get_target_series f = some col) :
    col.length = f.rows.length := by
  unfold _get_target_series at h
  split_ifs at h
  · cases h; simp
  · cases h; simp

theorem seriesPod_len (f : Frame) : (seriesPod f).length = f.rows.length := by
  unfold seriesPod
  split
  · rw [excel_len]; simp
  · simp

theorem seriesTarget_len (f : Frame) : (seriesTarget f).length = f.rows.length := by
  unfold seriesTarget
  cases h : _get_target_series f
  · simp
  · rw [excel_len, tcol_len h]

theorem datePairs_len (f : Frame) : (datePairs f).length = f.rows.length := by
  unfold datePairs
  simp [List.length_zip, seriesPod_len, seriesTarget_len]

theorem countP_zip_snd {α β : Type} (p : β → Bool) :
    ∀ (l1 : List α) (l2 : List β), l1.length = l2.length →
      (l1.zip l2).countP (fun x => p x.2) = l2.countP p := by
  intro l1
  induction l1 with
  | nil =>
    intro l2 h
    cases l2
    · rfl
    · simp at h
  | cons a t ih =>
    intro l2 h
    cases l2 with
    | nil => simp at h
    | cons b bs =>
      simp only [List.zip_cons_cons, List.countP_cons]
      rw [ih bs (by simpa using h)]

theorem validCount_zero_of_nil {f : Frame} (h : f.rows = []) : validCount f = 0 := by
  have hl : (datePairs f).length = 0 := by rw [datePairs_len, h]; rfl
  unfold validCount
  rw [List.length_eq_zero.mp hl]
  rfl

theorem validCount_zero_of_targetNone {f : Frame} (h : _get_target_series f = none) :
    validCount f = 0 := by
  unfold validCount
  rw [List.countP_eq_zero]
  intro pt hpt
  unfold datePairs at hpt
  obtain ⟨p, t⟩ := pt
  have h2 := (List.of_mem_zip hpt).2
  unfold seriesTarget at h2
  simp only [h] at h2
  have ht : t = none := List.eq_of_mem_replicate h2
  subst ht
  simp [validPair]

theorem validCount_zero_of_noPod {f : Frame} (h : f.hasPod = false) :
    validCount f = 0 := by
  unfold validCount
  rw [List.countP_eq_zero]
  intro pt hpt
  unfold datePairs at hpt
  obtain ⟨p, t⟩ := pt
  have h1 := (List.of_mem_zip hpt).1
  unfold seriesPod at h1
  simp only [h] at h1
  have hp : p = none := List.eq_of_mem_replicate h1
  subst hp
  simp [validPair]

theorem ontimePair_valid {pt : Option ℚ × Option ℚ} (h : ontimePair pt = true) :
    validPair pt = true := by
  unfold ontimePair at h
  exact (Bool.and_eq_true_iff.mp h).2

theorem ontimeCount_eq_valid {f : Frame}
    (h : ∀ pt ∈ datePairs f, validPair pt = true → optLe pt.1 pt.2 = true) :
    ontimeCount f = validCount f := by
  unfold ontimeCount validCount
  apply Nat.le_antisymm
  · exact List.countP_mono_left (fun pt _ ho => ontimePair_valid ho)
  · apply List.countP_mono_left
    intro pt hpt hv
    simp [ontimePair, h pt hpt hv, hv]

theorem ontimeCount_eq_zero {f : Frame}
    (h : ∀ pt ∈ datePairs f, validPair pt = true → optLe pt.1 pt.2 = false) :
    ontimeCount f = 0 := by
  unfold ontimeCount
  rw [List.countP_eq_zero]
  intro pt hpt habs
  unfold ontimePair at habs
  obtain ⟨h1, h2⟩ := Bool.and_eq_true_iff.mp habs
  rw [h pt hpt h2] at h1
  exact absurd h1 (by decide)

unseal Rat.add Rat.sub Rat.mul Rat.inv in
theorem round2_zero : round2 0 = 0 := by decide

unseal Rat.add Rat.sub Rat.mul Rat.inv in
theorem round2_hundred : round2 100 = 100 := by decide

theorem grossSpec_zero {f : Frame} (h : validCount f = 0) : grossSpec f = 0 := by
  unfold grossSpec
  rw [if_pos h]

theorem ctrlCount_eq_valid {f : Frame}
    (hA : ∀ q ∈ f.rows.map Row.qc, nonCtrlA q = false) :
    ctrlCount f = validCount f := by
  unfold ctrlCount
  rw [List.countP_congr (q := fun x => validPair x.2)]
  · exact countP_zip_snd validPair _ _ (by simp [datePairs_len])
  · intro x hx
    obtain ⟨q, pt⟩ := x
    have hq := (List.of_mem_zip hx).1
    simp [hA q hq]

theorem netOnCount_eq_ontime {f : Frame}
    (hA : ∀ q ∈ f.rows.map Row.qc, nonCtrlA q = false) :
    netOnCount f = ontimeCount f := by
  unfold netOnCount
  rw [List.countP_congr (q := fun x => ontimePair x.2)]
  · exact countP_zip_snd ontimePair _ _ (by simp [datePairs_len])
  · intro x hx
    obtain ⟨q, pt⟩ := x
    have hq := (List.of_mem_zip hx).1
    constructor
    · intro h
      exact (Bool.and_eq_true_iff.mp h).1
    · intro h
      simp [h, ontimePair_valid h, hA q hq]

theorem ctrlCountV0_eq_valid {f : Frame}
    (hV : ∀ q ∈ f.rows.map Row.qc, nonCtrlV0 q = false) :
    ctrlCountV0 f = validCount f := by
  unfold ctrlCountV0
  rw [List.countP_congr (q := fun x => validPair x.2)]
  · exact countP_zip_snd validPair _ _ (by simp [datePairs_len])
  · intro x hx
    obtain ⟨q, pt⟩ := x
    have hq := (List.of_mem_zip hx).1
    simp [hV q hq]

/-! ## Classifier lemmas -/

theorem map_lowerChar_dd {l : List Char} (h : ∀ c ∈ l, isDDChar c = true) :
    l.map lowerChar = l := by
  induction l with
  | nil => rfl
  | cons a t ih =>
    simp only [List.map_cons]
    rw [lowerChar_dd (h a (List.mem_cons_self a t)),
      ih (fun c hc => h c (List.mem_cons_of_mem a hc))]

theorem pyLower_strNum (n : Nat) : pyLower (pyStrNum n) = pyStrNum n := by
  unfold pyLower
  rw [map_lowerChar_dd (pyStrNum_dd n)]

theorem rp_mem_num (n : Nat) : pyStrNum n ∉ RP_ACCOUNTS := by
  intro hm
  have hall : ∀ s ∈ RP_ACCOUNTS, s.data.any isLetterChar = true := by decide
  obtain ⟨c, hc, hcl⟩ := List.any_eq_true.mp (hall _ hm)
  have hfl := ddChar_not_letter (pyStrNum_dd n c hc)
  rw [hcl] at hfl
  exact absurd hfl (by decide)

theorem is_rp_num (n : Nat) : is_rp_account (Cell.num n) = false := by
  unfold is_rp_account
  cases hT : pyTruthy (Cell.num n)
  · simp
  · simp [pyStrCell, rp_mem_num n]

theorem hc_letters : HEALTHCARE_KEYWORDS.all (fun k => k.data.any isLetterChar) = true := by
  decide

theorem av_letters : AVIATION_KEYWORDS.all (fun k => k.data.any isLetterChar) = true := by
  decide

theorem containsAny_av_num (n : Nat) :
    containsAny AVIATION_KEYWORDS (pyLower (pyStrCell (Cell.num n))) = false := by
  show containsAny AVIATION_KEYWORDS (pyLower (pyStrNum n)) = false
  rw [pyLower_strNum]
  exact containsAny_dd AVIATION_KEYWORDS av_letters _ (pyStrNum_dd n)

theorem containsAny_hc_num (n : Nat) :
    containsAny HEALTHCARE_KEYWORDS (pyLower (pyStrCell (Cell.num n))) = false := by
  show containsAny HEALTHCARE_KEYWORDS (pyLower (pyStrNum n)) = false
  rw [pyLower_strNum]
  exact containsAny_dd HEALTHCARE_KEYWORDS hc_letters _ (pyStrNum_dd n)

theorem is_hc_num (n : Nat) : is_healthcare (Cell.num n) = false := by
  unfold is_healthcare
  cases hT : pyTruthy (Cell.num n)
  · simp
  · simp [is_rp_num n, containsAny_av_num n, containsAny_hc_num n]

theorem is_av_num (n : Nat) : is_aviation (Cell.num n) = false := by
  unfold is_aviation
  cases hT : pyTruthy (Cell.num n)
  · simp
  · simp [is_rp_num n, containsAny_av_num n, containsAny_hc_num n]

theorem classify_num (n : Nat) : classify (Cell.num n) = Segment.Unclassified := by
  unfold classify
  simp [is_rp_num n, is_hc_num n, is_av_num n]

theorem is_healthcare_eq (c : Cell) :
    is_healthcare c = (pyTruthy c && !is_rp_account c
      && !containsAny AVIATION_KEYWORDS (pyLower (pyStrCell c))
      && containsAny HEALTHCARE_KEYWORDS (pyLower (pyStrCell c))) := by
  unfold is_healthcare
  cases h1 : pyTruthy c <;> cases h2 : is_rp_account c
    <;> cases h3 : containsAny AVIATION_KEYWORDS (pyLower (pyStrCell c))
    <;> simp [h1, h2, h3]

theorem is_aviation_eq (c : Cell) :
    is_aviation c = (pyTruthy c && !is_rp_account c
      && !containsAny HEALTHCARE_KEYWORDS (pyLower (pyStrCell c))
      && containsAny AVIATION_KEYWORDS (pyLower (pyStrCell c))) := by
  unfold is_aviation
  cases h1 : pyTruthy c <;> cases h2 : is_rp_account c
    <;> cases h3 : containsAny HEALTHCARE_KEYWORDS (pyLower (pyStrCell c))
    <;> simp [h1, h2, h3]

theorem healthcare_not_aviation {c : Cell} (h : is_healthcare c = true) :
    is_aviation c = false := by
  rw [is_healthcare_eq] at h
  simp only [Bool.and_eq_true_iff] at h
  rw [is_aviation_eq]
  simp [h.2]

theorem netOnCountV0_eq_ontime {f : Frame}
    (hV : ∀ q ∈ f.rows.map Row.qc, nonCtrlV0 q = false) :
    netOnCountV0 f = ontimeCount f := by
  unfold netOnCountV0
  rw [List.countP_congr (q := fun x => ontimePair x.2)]
  · exact countP_zip_snd ontimePair _ _ (by simp [datePairs_len])
  · intro x hx
    obtain ⟨q, pt⟩ := x
    have hq := (List.of_mem_zip hx).1
    simp [hV q hq, ontimePair]

/-! ## Claim theorems: classification -/

/-- Counterexample to claim C1: the name Marken Ltd followed by a trailing
space trims to an allow-listed entry, yet the pipeline classifies it
LifeSciences via the marken keyword, because is_rp_account matches without
trimming. -/
theorem rp_allowlist_trim_counterexample :
    pyStrip "Marken Ltd " ∈ RP_ACCOUNTS
    ∧ classify (Cell.txt "Marken Ltd ") = Segment.LFS
    ∧ Segment.LFS ≠ Segment.RP :=
  ⟨by decide, by decide, by decide⟩

/-- Claim C1 (amended): for every account name that equals an allow-list
entry verbatim, with no whitespace trimming applied, classification returns
RadioPharma and the record is never classified LifeSciences or Aviation,
regardless of keyword content. -/
theorem rp_allowlist_exact_match_classify (s : String) (h : s ∈ RP_ACCOUNTS) :
    classify (Cell.txt s) = Segment.RP
    ∧ is_healthcare (Cell.txt s) = false
    ∧ is_aviation (Cell.txt s) = false := by
  have hne : s ≠ "" := fun he => absurd (he ▸ h) (by decide)
  have hbeq : (s == "") = false := by
    cases hb : s == ""
    · rfl
    · exact absurd (eq_of_beq hb) hne
  have hrp : is_rp_account (Cell.txt s) = true := by
    unfold is_rp_account
    simp only [pyTruthy, hbeq, Bool.not_false, Bool.not_true, Bool.false_eq_true, if_false]
    exact List.elem_iff.mpr h
  refine ⟨?_, ?_, ?_⟩
  · unfold classify
    rw [hrp]
    simp
  · rw [is_healthcare_eq, hrp]
    simp
  · rw [is_aviation_eq, hrp]
    simp

/-- Witness for claim C1 at the concrete allow-listed name Marken Ltd. -/
theorem rp_allowlist_exact_match_classify_witness :
    classify (Cell.txt "Marken Ltd") = Segment.RP
    ∧ is_healthcare (Cell.txt "Marken Ltd") = false
    ∧ is_aviation (Cell.txt "Marken Ltd") = false :=
  rp_allowlist_exact_match_classify "Marken Ltd" (by decide)

/-- Claim C2: for every row, membership in the RadioPharma, LifeSciences
and Aviation record sets of one report run is pairwise exclusive. -/
theorem segments_pairwise_disjoint (r : Row) :
    (inRP r && inLFS r) = false
    ∧ (inRP r && inAVS r) = false
    ∧ (inLFS r && inAVS r) = false := by
  refine ⟨?_, ?_, ?_⟩
  · cases h : isinRP r.acct
    · simp [inRP, h]
    · simp [inLFS, h]
  · cases h : isinRP r.acct
    · simp [inRP, h]
    · simp [inAVS, h]
  · cases h : is_healthcare r.acct
    · simp [inLFS, h]
    · simp [inAVS, healthcare_not_aviation h]

/-- Counterexample to claim C3: the name cargo pharma carries an aviation
keyword and a healthcare keyword, is not allow-listed, and is classified
neither Aviation nor LifeSciences: the two keyword classifiers suppress
each other symmetrically, so the record is Unclassified. -/
theorem aviation_tie_counterexample :
    containsAny AVIATION_KEYWORDS (pyLower (pyStrCell (Cell.txt "cargo pharma"))) = true
    ∧ containsAny HEALTHCARE_KEYWORDS (pyLower (pyStrCell (Cell.txt "cargo pharma"))) = true
    ∧ is_rp_account (Cell.txt "cargo pharma") = false
    ∧ classify (Cell.txt "cargo pharma") = Segment.Unclassified
    ∧ Segment.Unclassified ≠ Segment.AVS :=
  ⟨by decide, by decide, by decide, by decide, by decide⟩

/-- Claim C3 (amended): a non-allow-listed account name containing at least
one aviation keyword and at least one healthcare keyword is classified
neither Aviation nor LifeSciences: each keyword classifier checks the other
taxonomy first and suppresses itself, so the record is Unclassified. -/
theorem both_keyword_kinds_unclassified (s : String)
    (hAV : containsAny AVIATION_KEYWORDS (pyLower (pyStrCell (Cell.txt s))) = true)
    (hHC : containsAny HEALTHCARE_KEYWORDS (pyLower (pyStrCell (Cell.txt s))) = true)
    (hRP : is_rp_account (Cell.txt s) = false) :
    classify (Cell.txt s) = Segment.Unclassified := by
  simp [classify, is_healthcare_eq, is_aviation_eq, hAV, hHC, hRP]

/-- Witness for claim C3 at the concrete name cargo pharma. -/
theorem both_keyword_kinds_unclassified_witness :
    classify (Cell.txt "cargo pharma") = Segment.Unclassified :=
  both_keyword_kinds_unclassified "cargo pharma" (by decide) (by decide) (by decide)

/-- Claim C9: a NaN account cell, an empty-string account name, and every
numeric account cell are classified Unclassified; every classifier function
of the embedding is total, so no input raises. -/
theorem classify_empty_or_nonstring_unclassified :
    classify Cell.null = Segment.Unclassified
    ∧ classify (Cell.txt "") = Segment.Unclassified
    ∧ ∀ n : Nat, classify (Cell.num n) = Segment.Unclassified :=
  ⟨by decide, by decide, classify_num⟩

/-! ## Claim theorems: OTP, dates, office filter -/

/-- Frame with every valid record on time (one strict, one tie). -/
def fAllOn : Frame :=
  { rows := [{ baseRow with pod := .dt 1, updDel := .dt 2 },
             { baseRow with pod := .dt 3, updDel := .dt 3 }],
    hasUpdDel := true, hasPod := true }

/-- Frame with every valid record late. -/
def fAllLate : Frame :=
  { rows := [{ baseRow with pod := .dt 5, updDel := .dt 2 }],
    hasUpdDel := true, hasPod := true }

/-- Frame with three valid records, one on time. -/
def fThird : Frame :=
  { rows := [{ baseRow with pod := .dt 1, updDel := .dt 2 },
             { baseRow with pod := .dt 5, updDel := .dt 2 },
             { baseRow with pod := .dt 6, updDel := .dt 2 }],
    hasUpdDel := true, hasPod := true }

unseal Rat.add Rat.sub Rat.mul Rat.inv in
/-- Counterexample to claim C4 as frozen: with one on-time record out of
three valid ones the code reports the ratio rounded to two decimals,
33.33, which differs from the exact ratio one third of one hundred. -/
theorem gross_rounding_counterexample :
    validCount fThird = 3 ∧ ontimeCount fThird = 1
    ∧ (calculate_otp fThird).1 = 3333/100
    ∧ (ontimeCount fThird : ℚ) / (validCount fThird : ℚ) * 100 ≠ 3333/100 := by
  decide

/-- Claim C4 (amended): calculate_otp counts a record valid iff both parsed
timestamps are non-null and on-time iff valid with POD at most target; its
gross component is the on-time over valid ratio times one hundred rounded
to two decimals, 0 when no record is valid, 100.0 when every valid record
is on time, and 0.0 when every valid record is late. -/
theorem calculate_otp_gross_spec (f : Frame) :
    (calculate_otp f).1 = round2 (grossSpec f)
    ∧ (validCount f = 0 → (calculate_otp f).1 = 0)
    ∧ (0 < validCount f →
        (∀ pt ∈ datePairs f, validPair pt = true → optLe pt.1 pt.2 = true) →
        (calculate_otp f).1 = 100)
    ∧ ((∀ pt ∈ datePairs f, validPair pt = true → optLe pt.1 pt.2 = false) →
        (calculate_otp f).1 = 0) := by
  have hA : (calculate_otp f).1 = round2 (grossSpec f) := by
    unfold calculate_otp
    split_ifs with h1 h2 h3 h4 h5
    · rw [grossSpec_zero (validCount_zero_of_nil (List.isEmpty_iff.mp h1)), round2_zero]
    · rw [grossSpec_zero (validCount_zero_of_targetNone (Option.isNone_iff_eq_none.mp h2)),
        round2_zero]
    · rw [grossSpec_zero (validCount_zero_of_noPod (by simpa using h3)), round2_zero]
    · rw [grossSpec_zero h4, round2_zero]
    · show round2 (grossRatio f) = round2 (grossSpec f)
      unfold grossSpec grossRatio
      rw [if_neg h4]
    · show round2 (grossRatio f) = round2 (grossSpec f)
      unfold grossSpec grossRatio
      rw [if_neg h4]
    · show round2 (grossRatio f) = round2 (grossSpec f)
      unfold grossSpec grossRatio
      rw [if_neg h4]
  refine ⟨hA, ?_, ?_, ?_⟩
  · intro hv
    rw [hA, grossSpec_zero hv, round2_zero]
  · intro hpos hall
    rw [hA]
    unfold grossSpec
    rw [if_neg (Nat.pos_iff_ne_zero.mp hpos), ontimeCount_eq_valid hall]
    have hne : (validCount f : ℚ) ≠ 0 := Nat.cast_ne_zero.mpr (Nat.pos_iff_ne_zero.mp hpos)
    rw [div_self hne, one_mul, round2_hundred]
  · intro hall
    rw [hA]
    unfold grossSpec
    by_cases hv : validCount f = 0
    · rw [if_pos hv, round2_zero]
    · rw [if_neg hv, ontimeCount_eq_zero hall, Nat.cast_zero, zero_div, zero_mul, round2_zero]

/-- Witness for claim C4: the all-on-time frame reports 100 and the
all-late frame reports 0. -/
theorem calculate_otp_gross_spec_witness :
    (0 < validCount fAllOn ∧ (calculate_otp fAllOn).1 = 100)
    ∧ (calculate_otp fAllLate).1 = 0 :=
  ⟨⟨by decide, (calculate_otp_gross_spec fAllOn).2.2.1 (by decide) (by decide)⟩,
   (calculate_otp_gross_spec fAllLate).2.2.2 (by decide)⟩

/-- Frame whose only valid record is on time but annotated CUSTOMS. -/
def fC5 : Frame :=
  { rows := [{ baseRow with pod := .dt 1, updDel := .dt 2, qc := some "CUSTOMS" }],
    hasUpdDel := true, hasPod := true, hasQc := true }

/-- Frame whose only valid record is on time with a harmless annotation. -/
def fC5b : Frame :=
  { rows := [{ baseRow with pod := .dt 1, updDel := .dt 2, qc := some "OK" }],
    hasUpdDel := true, hasPod := true, hasQc := true }

unseal Rat.add Rat.sub Rat.mul Rat.inv in
/-- Counterexample to claim C5: one valid on-time record annotated CUSTOMS
gives gross 100 and zero controllable records, and the hardened variant
reports net 0.0 instead of falling back to the gross value. -/
theorem net_fallback_counterexample :
    ctrlCount fC5 = 0 ∧ (calculate_otp fC5).1 = 100 ∧ (calculate_otp fC5).2 = 0
    ∧ (0 : ℚ) ≠ 100 := by
  decide

/-- Claim C5 (amended): on a frame with both date columns, a QC column and
at least one valid record, the net component equals the on-time-and-
controllable over controllable ratio times one hundred rounded to two
decimals whenever some record is controllable; with zero controllable
records the hardened variant reports 0.0 while the earlier variant falls
back to the gross ratio, and neither divides by zero. -/
theorem calculate_otp_net_spec (f : Frame)
    (h1 : f.rows.isEmpty = false)
    (h2 : (_get_target_series f).isNone = false)
    (h3 : f.hasPod = true)
    (h4 : validCount f ≠ 0)
    (h5 : f.hasQc = true) :
    (0 < ctrlCount f → (calculate_otp f).2 = round2 (netSpecRatio f))
    ∧ (ctrlCount f = 0 → (calculate_otp f).2 = 0)
    ∧ (ctrlCountV0 f = 0 → (calculate_otp_v0 f).2 = grossRatio f) := by
  refine ⟨?_, ?_, ?_⟩
  · intro hc
    simp [calculate_otp, h1, h2, h3, h4, h5, hc, netSpecRatio]
  · intro hc
    simp [calculate_otp, h1, h2, h3, h4, h5, hc, round2_zero]
  · intro hc
    simp [calculate_otp_v0, h1, h2, h3, h4, h5, hc]

/-- Witness for claim C5: the harmless frame reports the net ratio, and the
CUSTOMS frame exercises both fallbacks. -/
theorem calculate_otp_net_spec_witness :
    (calculate_otp fC5b).2 = round2 (netSpecRatio fC5b)
    ∧ (calculate_otp fC5).2 = 0
    ∧ (calculate_otp_v0 fC5).2 = grossRatio fC5 :=
  ⟨(calculate_otp_net_spec fC5b (by decide) (by decide) (by decide) (by decide)
      (by decide)).1 (by decide),
   (calculate_otp_net_spec fC5 (by decide) (by decide) (by decide) (by decide)
      (by decide)).2.1 (by decide),
   (calculate_otp_net_spec fC5 (by decide) (by decide) (by decide) (by decide)
      (by decide)).2.2 (by decide)⟩

/-- Claim C6 (amended): when no record carries a QC annotation matching a
non-controllable pattern of either variant, including frames without a QC
column at all, both calculate_otp variants report net equal to gross; the
earlier add_otp_columns and kpis_for_september pipeline violates this. -/
theorem net_eq_gross_all_controllable (f : Frame)
    (hA : f.hasQc = true → ∀ q ∈ f.rows.map Row.qc, nonCtrlA q = false)
    (hV : f.hasQc = true → ∀ q ∈ f.rows.map Row.qc, nonCtrlV0 q = false) :
    (calculate_otp f).2 = (calculate_otp f).1
    ∧ (calculate_otp_v0 f).2 = (calculate_otp_v0 f).1 := by
  constructor
  · unfold calculate_otp
    split_ifs with h1 h2 h3 h4 h5 h6
    · rfl
    · rfl
    · rfl
    · rfl
    · show round2 ((netOnCount f : ℚ) / (ctrlCount f : ℚ) * 100) = round2 (grossRatio f)
      rw [netOnCount_eq_ontime (hA h5), ctrlCount_eq_valid (hA h5)]
      rfl
    · exact absurd (ctrlCount_eq_valid (hA h5) ▸ Nat.pos_of_ne_zero h4) h6
    · rfl
  · unfold calculate_otp_v0
    split_ifs with h1 h2 h3 h4 h5 h6
    · rfl
    · rfl
    · rfl
    · rfl
    · show (netOnCountV0 f : ℚ) / (ctrlCountV0 f : ℚ) * 100 = grossRatio f
      rw [netOnCountV0_eq_ontime (hV h5), ctrlCountV0_eq_valid (hV h5)]
      rfl
    · rfl
    · rfl

/-- Frame with a harmless annotation, on time, for the C6 witness. -/
def fC6w : Frame :=
  { rows := [{ baseRow with pod := .dt 1, updDel := .dt 1, qc := some "ON TIME" }],
    hasUpdDel := true, hasPod := true, hasQc := true }

/-- Witness for claim C6 at a concrete all-controllable frame. -/
theorem net_eq_gross_all_controllable_witness :
    (calculate_otp fC6w).2 = (calculate_otp fC6w).1
    ∧ (calculate_otp_v0 fC6w).2 = (calculate_otp_v0 fC6w).1 :=
  net_eq_gross_all_controllable fC6w (by decide) (by decide)

/-- September 2024 frame with one late record and no QC NAME column. -/
def fC6ce : Frame :=
  { rows := [{ baseRow with pod := .dt 19971, updDel := .dt 19970 }],
    hasUpdDel := true, hasPod := true }

unseal Rat.add Rat.sub Rat.mul Rat.inv in
/-- Counterexample to claim C6 on the earlier pipeline: with no QC NAME
column at all, the one valid September record is late, yet
kpis_for_september reports net 100 against gross 0, because
add_otp_columns counts every late row without a pattern match as
net-on-time. -/
theorem kpis_net_gross_counterexample :
    fC6ce.hasQcName = false
    ∧ kpis_for_september (add_otp_columns fC6ce) (some 2024) =
        { volume := 1, pieces := 0, gross := some 0, net := some 100 }
    ∧ some (0 : ℚ) ≠ some (100 : ℚ) := by
  decide

/-- Frame whose UPD DEL column is partially null while QDT is full. -/
def fC7 : Frame :=
  { rows := [{ baseRow with updDel := .dt 5, qdt := .dt 1 },
             { baseRow with updDel := .null, qdt := .dt 3 }],
    hasUpdDel := true, hasQdt := true }

/-- Counterexample to claim C7: the code selects the whole UPD DEL column
once it holds any non-null value, so the second record keeps a null target
although its own QDT cell is non-null, contradicting per-record
derivation. -/
theorem target_per_record_counterexample :
    _get_target_series fC7 = some [RawCell.dt 5, RawCell.null]
    ∧ targetPerRecordSpec fC7 = [RawCell.dt 5, RawCell.dt 3]
    ∧ ([RawCell.dt 5, RawCell.null] : List RawCell) ≠ [RawCell.dt 5, RawCell.dt 3] :=
  ⟨by decide, by decide, by decide⟩

/-- Claim C7 (amended): target selection is column-level: when the UPD DEL
column exists and holds at least one non-null value every record takes its
own UPD DEL cell, null cells included; the QDT column is used only when
UPD DEL is absent or entirely null, and with neither column there is no
target. -/
theorem target_series_column_level (f : Frame) :
    (f.hasUpdDel = true → (f.rows.map Row.updDel).any rawNotna = true →
      _get_target_series f = some (f.rows.map Row.updDel))
    ∧ ((f.hasUpdDel = false ∨ (f.rows.map Row.updDel).any rawNotna = false) →
      f.hasQdt = true → _get_target_series f = some (f.rows.map Row.qdt))
    ∧ ((f.hasUpdDel = false ∨ (f.rows.map Row.updDel).any rawNotna = false) →
      f.hasQdt = false → _get_target_series f = none) := by
  refine ⟨?_, ?_, ?_⟩
  · intro h1 h2
    unfold _get_target_series
    rw [if_pos (by simp [h1, h2])]
  · intro h1 h2
    unfold _get_target_series
    rw [if_neg (by rcases h1 with h | h <;> simp [h]), if_pos h2]
  · intro h1 h2
    unfold _get_target_series
    rw [if_neg (by rcases h1 with h | h <;> simp [h]), if_neg (by simp [h2])]

/-- Witness for claim C7 at the concrete mixed frame. -/
theorem target_series_column_level_witness :
    _get_target_series fC7 = some (fC7.rows.map Row.updDel) :=
  (target_series_column_level fC7).1 (by decide) (by decide)

/-- Claim C8: the Date Normalizer preserves length and order, applies the
serial reinterpretation only when strictly more than half of the calendar
parses fail, in that case keeps each non-null calendar result and otherwise
takes the 1899-12-30 epoch plus the numeric value as days, and a value
failing both parses becomes null rather than an error. -/
theorem excel_to_dt_spec (s : List RawCell) :
    (_excel_to_dt s).length = s.length
    ∧ (2 * naFailCount s ≤ s.length → _excel_to_dt s = s.map toDt)
    ∧ (2 * naFailCount s > s.length → _excel_to_dt s = s.map dtFallback)
    ∧ ∀ c : RawCell, toDt c = none → toNum c = none → dtFallback c = none := by
  refine ⟨excel_len s, ?_, ?_, ?_⟩
  · intro h
    exact excel_nofb (Nat.not_lt.mpr h)
  · intro h
    exact excel_fb h
  · intro c h1 h2
    simp [dtFallback, h1, h2]

/-- Column with a raw serial 45200, an unparseable cell, and a date. -/
def c8List : List RawCell := [RawCell.num 45200, RawCell.junk, RawCell.dt 7]

unseal Rat.add Rat.sub Rat.mul Rat.inv in
/-- Witness for claim C8: two of three cells fail calendar parsing, so the
fallback fires; the serial cell becomes the epoch plus 45200 days, the
junk cell becomes null, and the parsed cell keeps its calendar value. -/
theorem excel_to_dt_spec_witness :
    2 * naFailCount c8List > c8List.length
    ∧ _excel_to_dt c8List = [some (epoch1899 + 45200), none, some 7] := by
  refine ⟨by decide, ?_⟩
  rw [(excel_to_dt_spec c8List).2.2.1 (by decide)]
  decide

/-- Claim C10: filter_by_ams returns its input unchanged whenever the DEP
and ARR columns are not both present, so every row reaches the downstream
pipelines unfiltered. -/
theorem filter_by_ams_passthrough (f : Frame) (h : (f.hasDep && f.hasArr) = false) :
    filter_by_ams f = f := by
  unfold filter_by_ams
  split_ifs with h1 h2
  · rfl
  · rw [h] at h2
    exact absurd h2 (by decide)
  · rfl

/-- Frame with a DEP column only, and a row no office mask would keep. -/
def fC10 : Frame :=
  { rows := [{ baseRow with dep := .txt "JFK", arr := .txt "LHR" }],
    hasDep := true }

/-- Witness for claim C10: with ARR missing the frame passes unchanged. -/
theorem filter_by_ams_passthrough_witness : filter_by_ams fC10 = fC10 :=
  filter_by_ams_passthrough fC10 (by decide)
